import Mathlib

/-
Verification of `src/sketch.js` ("Numbers: Zen Digit Dissolve", a p5.js
single-file sketch) against its natural-language specification.

The sketch's pure logic is shallowly embedded here:
  * JS numbers are modelled as real numbers `ℝ` (exact arithmetic); values
    that the program keeps integral (canvas dimensions, parsed durations,
    pixel channels) are modelled as `ℕ`/`ℤ`/`ℚ` where that is faithful.
  * 2D p5 vectors are modelled as complex numbers `ℂ` (re = x, im = y),
    whose norm is the Euclidean length used by the sketch's geometry.
  * The Perlin noise source `noise(x, y, z)` is an external input; it is
    modelled as an arbitrary function `ℝ → ℝ → ℝ → ℝ`, with its documented
    range [0,1] taken as a hypothesis where a claim needs it.
  * `random(..)` draws are likewise modelled as injected values.
  * JS `%` on numbers and `Math.trunc`-style rounding toward zero are
    modelled by `jsMod` / `jsTrunc`; p5's `map` and `lerp` by `jsMap` and
    `lerp`.
-/

namespace Sketch

/-- p5 `lerp(start, stop, amt) = start + (stop - start) * amt`. -/
def lerp (a b t : ℝ) : ℝ := a + (b - a) * t

/-- p5 `map(v, a, b, c, d)` (no clamping). -/
noncomputable def jsMap (v a b c d : ℝ) : ℝ := c + (v - a) / (b - a) * (d - c)

/-- Truncation toward zero, as JS division semantics use for `%`. -/
noncomputable def jsTrunc (x : ℝ) : ℤ := if 0 ≤ x then ⌊x⌋ else ⌈x⌉

/-- JS remainder `a % b` on numbers: `a - b * trunc (a / b)`. -/
noncomputable def jsMod (a b : ℝ) : ℝ := a - b * jsTrunc (a / b)

/-- A 2D p5 vector `(x, y)`, embedded as the complex number `x + y i`. -/
def vec2 (x y : ℝ) : ℂ := ⟨x, y⟩

/-- An external Perlin-noise source: `noise(x, y, z)`. -/
def Noise : Type := ℝ → ℝ → ℝ → ℝ

-- ===== Constants of the sketch (src/sketch.js lines 20-34) =====

def SAMPLE_STEP : ℕ := 6
def TARGET_SCALE : ℝ := 0.78
def MARGIN_FRAC : ℝ := 0.12
def EXHALE_SPREAD : ℝ := 28
def EXHALE_JITTER : ℝ := 0.9
def INHALE_TIGHTNESS : ℝ := 0.18
def DRIFT_NOISE_SCALE : ℝ := 0.002
def DRIFT_NOISE_STRENGTH : ℝ := 0.9
def HUD_FADE : ℝ := 140

-- ===== Breath Clock (src/sketch.js lines 73-77) =====

/-- Full breath period: `const period = BREATH_SECONDS * 2`. -/
def breathPeriod (h : ℝ) : ℝ := h * 2

/-- Breath phase: `const phase = (t % period) / period`. -/
noncomputable def breathPhase (h t : ℝ) : ℝ :=
  jsMod t (breathPeriod h) / breathPeriod h

/-- Triangle wave: `const tri = phase < 0.5 ? phase * 2 : 2 - phase * 2`. -/
noncomputable def breathTri (h t : ℝ) : ℝ :=
  if breathPhase h t < 0.5 then breathPhase h t * 2 else 2 - breathPhase h t * 2

/-- Exhale: `const exhale = 1 - tri`. -/
noncomputable def breathExhale (h t : ℝ) : ℝ := 1 - breathTri h t

lemma jsMod_nonneg_eq (a b : ℝ) (ha : 0 ≤ a) (hb : 0 < b) :
    jsMod a b = b * Int.fract (a / b) := by
  have hq : 0 ≤ a / b := div_nonneg ha hb.le
  rw [jsMod, jsTrunc, if_pos hq, Int.fract]
  field_simp

lemma breathPhase_eq_fract (h t : ℝ) (hh : 0 < h) (ht : 0 ≤ t) :
    breathPhase h t = Int.fract (t / breathPeriod h) := by
  have hp : 0 < breathPeriod h := by rw [breathPeriod]; linarith
  rw [breathPhase, jsMod_nonneg_eq t _ ht hp, mul_comm, mul_div_assoc,
    div_self hp.ne', mul_one]

lemma breathPhase_mem (h t : ℝ) (hh : 0 < h) (ht : 0 ≤ t) :
    0 ≤ breathPhase h t ∧ breathPhase h t < 1 := by
  rw [breathPhase_eq_fract h t hh ht]
  exact ⟨Int.fract_nonneg _, Int.fract_lt_one _⟩

lemma breathPhase_zero (h : ℝ) (hh : 0 < h) : breathPhase h 0 = 0 := by
  rw [breathPhase_eq_fract h 0 hh le_rfl, zero_div, Int.fract_zero]

lemma breathPhase_half (h : ℝ) (hh : 0 < h) : breathPhase h h = 1 / 2 := by
  have hq : h / breathPeriod h = 1 / 2 := by
    rw [breathPeriod, div_eq_iff (by linarith : h * 2 ≠ 0)]
    ring
  rw [breathPhase_eq_fract h h hh hh.le, hq]
  exact Int.fract_eq_self.2 (by norm_num)

lemma breathPhase_full (h : ℝ) (hh : 0 < h) : breathPhase h (2 * h) = 0 := by
  have hq : 2 * h / breathPeriod h = 1 := by
    rw [breathPeriod, div_eq_iff (by linarith : h * 2 ≠ 0)]
    ring
  rw [breathPhase_eq_fract h (2 * h) hh (by linarith), hq, Int.fract_one]

/-- C1: for every half-period `h > 0.5` and nonnegative time `t`, the Breath
Clock computes `period = 2h`, a phase in `[0,1)`, a triangle wave `tri` that
stays in `[0,1]`, equals 0 at `t = 0`, equals 1 at `t = h`, returns to 0 at
`t = 2h`, and `exhale = 1 - tri`. -/
theorem breath_clock_triangle (h t : ℝ) (hh : 0.5 < h) (ht : 0 ≤ t) :
    breathPeriod h = 2 * h ∧
    (0 ≤ breathPhase h t ∧ breathPhase h t < 1) ∧
    (0 ≤ breathTri h t ∧ breathTri h t ≤ 1) ∧
    breathTri h 0 = 0 ∧
    breathTri h h = 1 ∧
    breathTri h (2 * h) = 0 ∧
    breathExhale h t = 1 - breathTri h t := by
  have hh0 : 0 < h := by linarith
  obtain ⟨hp0, hp1⟩ := breathPhase_mem h t hh0 ht
  refine ⟨by rw [breathPeriod]; ring, ⟨hp0, hp1⟩, ?_, ?_, ?_, ?_, rfl⟩
  · rw [breathTri]
    split <;> constructor <;> linarith
  · rw [breathTri, breathPhase_zero h hh0]
    norm_num
  · rw [breathTri, breathPhase_half h hh0]
    norm_num
  · rw [breathTri, breathPhase_full h hh0]
    norm_num

/-- Witness for C1 at `h = 8`, `t = 3`. -/
theorem breath_clock_triangle_witness :
    (0.5:ℝ) < 8 ∧ (0:ℝ) ≤ 3 ∧ breathTri 8 8 = 1 :=
  ⟨by norm_num, by norm_num,
    (breath_clock_triangle 8 3 (by norm_num) (by norm_num)).2.2.2.2.1⟩

-- ===== Flow Field (src/sketch.js lines 111-118) =====

/-- First noise sample of `flowForce`: `noise(x * s, y * s, t * 0.07)` with
`s = 0.0013`. -/
def flowNx (noise : Noise) (x y t : ℝ) : ℝ :=
  noise (x * 0.0013) (y * 0.0013) (t * 0.07)

/-- Second noise sample of `flowForce`, offset in space:
`noise((x + 999) * s, (y - 777) * s, t * 0.07)`. -/
def flowNy (noise : Noise) (x y t : ℝ) : ℝ :=
  noise ((x + 999) * 0.0013) ((y - 777) * 0.0013) (t * 0.07)

/-- Flow angle: `map(nx, 0, 1, -PI, PI)`. -/
noncomputable def flowAngle (noise : Noise) (x y t : ℝ) : ℝ :=
  jsMap (flowNx noise x y t) 0 1 (-Real.pi) Real.pi

/-- Flow magnitude: `map(ny, 0, 1, 0.2, 1.0)`. -/
noncomputable def flowMag (noise : Noise) (x y t : ℝ) : ℝ :=
  jsMap (flowNy noise x y t) 0 1 0.2 1.0

/-- Flow Field output: `createVector(cos(ang), sin(ang)).mult(magnitude)`. -/
noncomputable def flowForce (noise : Noise) (x y t : ℝ) : ℂ :=
  vec2 (Real.cos (flowAngle noise x y t)) (Real.sin (flowAngle noise x y t)) *
    ((flowMag noise x y t : ℝ) : ℂ)

-- ===== Particles and the Motion Integrator (src/sketch.js lines 80-103, 186-195) =====

/-- A particle: fixed `home`, mutable `pos`, fixed random `size`, `theta`,
`rand` (src/sketch.js lines 186-195). -/
structure Particle where
  home : ℂ
  pos : ℂ
  size : ℝ
  theta : ℝ
  rand : ℝ

/-- Per-frame drift angle:
`const ang = p.theta + n * TWO_PI` where
`n = noise(p.home.x * DRIFT_NOISE_SCALE, p.home.y * DRIFT_NOISE_SCALE, t * 0.15)`. -/
noncomputable def driftAngle (noise : Noise) (t : ℝ) (p : Particle) : ℝ :=
  p.theta +
    noise (p.home.re * DRIFT_NOISE_SCALE) (p.home.im * DRIFT_NOISE_SCALE)
      (t * 0.15) * (2 * Real.pi)

/-- Per-particle spread: `const spread = EXHALE_SPREAD * (0.4 + EXHALE_JITTER * p.rand)`. -/
def driftSpread (p : Particle) : ℝ :=
  EXHALE_SPREAD * (0.4 + EXHALE_JITTER * p.rand)

/-- The radial drift direction vector scaled by `spread` (unscaled by exhale):
`createVector(cos(ang), sin(ang))` times `spread`. -/
noncomputable def radialDriftVec (noise : Noise) (t : ℝ) (p : Particle) : ℂ :=
  vec2 (Real.cos (driftAngle noise t p)) (Real.sin (driftAngle noise t p)) *
    ((driftSpread p : ℝ) : ℂ)

/-- The flow push vector scaled by `DRIFT_NOISE_STRENGTH` (unscaled by exhale):
`flowForce(p.home.x, p.home.y, t).mult(DRIFT_NOISE_STRENGTH)`. -/
noncomputable def flowPushVec (noise : Noise) (t : ℝ) (p : Particle) : ℂ :=
  flowForce noise p.home.re p.home.im t * ((DRIFT_NOISE_STRENGTH : ℝ) : ℂ)

/-- The full drift of one frame:
`createVector(cos(ang), sin(ang)).mult(spread * exhale)` plus
`flowForce(...).mult(DRIFT_NOISE_STRENGTH * exhale)` (src/sketch.js lines 85-89). -/
noncomputable def particleDrift (noise : Noise) (t exhale : ℝ) (p : Particle) : ℂ :=
  vec2 (Real.cos (driftAngle noise t p)) (Real.sin (driftAngle noise t p)) *
      ((driftSpread p * exhale : ℝ) : ℂ) +
    flowForce noise p.home.re p.home.im t *
      ((DRIFT_NOISE_STRENGTH * exhale : ℝ) : ℂ)

/-- Target of one frame: `const target = p5.Vector.add(p.home, drift)`. -/
noncomputable def particleTarget (noise : Noise) (t exhale : ℝ) (p : Particle) : ℂ :=
  p.home + particleDrift noise t exhale p

/-- Easing factor: `const easing = lerp(1.0 - INHALE_TIGHTNESS, 0.08, exhale)`. -/
noncomputable def particleEasing (exhale : ℝ) : ℝ :=
  lerp (1.0 - INHALE_TIGHTNESS) 0.08 exhale

/-- One Motion Integrator step on a particle (src/sketch.js lines 80-97):
only `pos` is updated, by `p.pos.x = lerp(p.pos.x, target.x, easing)` and the
same for `y`. -/
noncomputable def particleStep (noise : Noise) (t exhale : ℝ) (p : Particle) : Particle :=
  { p with
    pos :=
      vec2 (lerp p.pos.re (particleTarget noise t exhale p).re (particleEasing exhale))
        (lerp p.pos.im (particleTarget noise t exhale p).im (particleEasing exhale)) }

-- ===== Vector helper lemmas =====

lemma norm_vec2_cos_sin (a : ℝ) : ‖vec2 (Real.cos a) (Real.sin a)‖ = 1 := by
  rw [Complex.norm_eq_abs, Complex.abs_apply, vec2, Complex.normSq_mk,
    ← sq, ← sq, Real.cos_sq_add_sin_sq, Real.sqrt_one]

lemma norm_vec2_cos_sin_mul (a m : ℝ) :
    ‖vec2 (Real.cos a) (Real.sin a) * ((m : ℝ) : ℂ)‖ = |m| := by
  rw [norm_mul, norm_vec2_cos_sin, Complex.norm_real, Real.norm_eq_abs, one_mul]

lemma vec2_lerp (a b c d e : ℝ) :
    vec2 (lerp a c e) (lerp b d e) = vec2 a b + ((e : ℝ) : ℂ) * (vec2 c d - vec2 a b) := by
  simp only [vec2, lerp, Complex.ext_iff, Complex.add_re, Complex.add_im,
    Complex.mul_re, Complex.mul_im, Complex.sub_re, Complex.sub_im,
    Complex.ofReal_re, Complex.ofReal_im]
  constructor <;> ring

/-- C7: assuming the noise source returns values in [0,1], the Flow Field's
angle lies in [-π, π], its magnitude in [0.2, 1.0], its output is the vector
(cos(angle)·magnitude, sin(angle)·magnitude), and the output is deterministic
in the noise source and the inputs. -/
theorem flow_field_range (noise : Noise) (x y t : ℝ)
    (hn : ∀ a b c, 0 ≤ noise a b c ∧ noise a b c ≤ 1) :
    (-Real.pi ≤ flowAngle noise x y t ∧ flowAngle noise x y t ≤ Real.pi) ∧
    (0.2 ≤ flowMag noise x y t ∧ flowMag noise x y t ≤ 1.0) ∧
    flowForce noise x y t =
      vec2 (Real.cos (flowAngle noise x y t) * flowMag noise x y t)
        (Real.sin (flowAngle noise x y t) * flowMag noise x y t) ∧
    ∀ noise' : Noise, (∀ a b c, noise' a b c = noise a b c) →
      flowForce noise' x y t = flowForce noise x y t := by
  have hpi := Real.pi_pos
  obtain ⟨hx0, hx1⟩ := hn (x * 0.0013) (y * 0.0013) (t * 0.07)
  obtain ⟨hy0, hy1⟩ := hn ((x + 999) * 0.0013) ((y - 777) * 0.0013) (t * 0.07)
  refine ⟨⟨?_, ?_⟩, ⟨?_, ?_⟩, ?_, ?_⟩
  · rw [flowAngle, jsMap, flowNx]; nlinarith
  · rw [flowAngle, jsMap, flowNx]; nlinarith
  · rw [flowMag, jsMap, flowNy]; nlinarith
  · rw [flowMag, jsMap, flowNy]; nlinarith
  · rw [flowForce]
    simp only [vec2, Complex.ext_iff, Complex.mul_re, Complex.mul_im,
      Complex.ofReal_re, Complex.ofReal_im]
    constructor <;> ring
  · intro noise' hq
    simp only [flowForce, flowAngle, flowMag, flowNx, flowNy, hq]

/-- Witness for C7 with the constant-zero noise source at `(x, y, t) = (0, 0, 0)`. -/
theorem flow_field_range_witness :
    (∀ a b c : ℝ, 0 ≤ (fun _ _ _ => (0:ℝ)) a b c ∧ (fun _ _ _ => (0:ℝ)) a b c ≤ 1) ∧
    (0.2 ≤ flowMag (fun _ _ _ => (0:ℝ)) 0 0 0 ∧ flowMag (fun _ _ _ => (0:ℝ)) 0 0 0 ≤ 1.0) :=
  ⟨fun _ _ _ => ⟨le_rfl, by norm_num⟩,
    (flow_field_range (fun _ _ _ => (0:ℝ)) 0 0 0
      (fun _ _ _ => ⟨le_rfl, by norm_num⟩)).2.1⟩

/-- C5: the Motion Integrator's target equals home plus the radial drift
vector and the flow vector, each scaled by `exhale`; the easing factor is
0.08 at `exhale = 1` and `1 - INHALE_TIGHTNESS` at `exhale = 0`. -/
theorem motion_target_and_easing (noise : Noise) (t exhale : ℝ) (p : Particle) :
    particleTarget noise t exhale p =
      p.home + ((exhale : ℝ) : ℂ) * radialDriftVec noise t p +
        ((exhale : ℝ) : ℂ) * flowPushVec noise t p ∧
    particleEasing 1 = 0.08 ∧
    particleEasing 0 = 1 - INHALE_TIGHTNESS := by
  refine ⟨?_, ?_, ?_⟩
  · rw [particleTarget, particleDrift, radialDriftVec, flowPushVec]
    push_cast
    ring
  · rw [particleEasing, lerp]; norm_num
  · rw [particleEasing, lerp, INHALE_TIGHTNESS]; norm_num

/-- C9: a Motion Integrator step never modifies `home`, `size`, `theta` or
`rand`; only `pos` changes. -/
theorem particle_step_fixed_fields (noise : Noise) (t exhale : ℝ) (p : Particle) :
    (particleStep noise t exhale p).home = p.home ∧
    (particleStep noise t exhale p).size = p.size ∧
    (particleStep noise t exhale p).theta = p.theta ∧
    (particleStep noise t exhale p).rand = p.rand :=
  ⟨rfl, rfl, rfl, rfl⟩

-- ===== Motion Integrator distance analysis (claim C2) =====

lemma vec2_eta (z : ℂ) : vec2 z.re z.im = z := by cases z; rfl

lemma vec2_real (r : ℝ) : vec2 r 0 = ((r : ℝ) : ℂ) := by
  simp [vec2, Complex.ext_iff]

lemma particleEasing_zero : particleEasing 0 = 0.82 := by
  rw [particleEasing, lerp, INHALE_TIGHTNESS]; norm_num

lemma particleEasing_one : particleEasing 1 = 0.08 := by
  rw [particleEasing, lerp]; norm_num

lemma particleStep_pos (noise : Noise) (t e : ℝ) (p : Particle) :
    (particleStep noise t e p).pos =
      p.pos + ((particleEasing e : ℝ) : ℂ) * (particleTarget noise t e p - p.pos) := by
  rw [particleStep]
  dsimp only
  rw [vec2_lerp, vec2_eta, vec2_eta]

lemma particleDrift_exhale_zero (noise : Noise) (t : ℝ) (p : Particle) :
    particleDrift noise t 0 p = 0 := by
  simp [particleDrift]

lemma particleTarget_exhale_zero (noise : Noise) (t : ℝ) (p : Particle) :
    particleTarget noise t 0 p = p.home := by
  rw [particleTarget, particleDrift_exhale_zero, add_zero]

lemma dist_step_exhale_zero (noise : Noise) (t : ℝ) (p : Particle) :
    dist (particleStep noise t 0 p).pos p.home = 0.18 * dist p.pos p.home := by
  rw [dist_eq_norm, dist_eq_norm, particleStep_pos, particleTarget_exhale_zero,
    particleEasing_zero]
  have hz : p.pos + ((0.82 : ℝ) : ℂ) * (p.home - p.pos) - p.home =
      ((0.18 : ℝ) : ℂ) * (p.pos - p.home) := by
    rw [show ((0.82 : ℝ) : ℂ) = (0.82 : ℂ) by norm_num,
      show ((0.18 : ℝ) : ℂ) = (0.18 : ℂ) by norm_num]
    ring
  rw [hz, norm_mul, Complex.norm_real, Real.norm_eq_abs]
  norm_num

lemma flowMag_le_one (noise : Noise) (x y t : ℝ)
    (hn : ∀ a b c, 0 ≤ noise a b c ∧ noise a b c ≤ 1) :
    |flowMag noise x y t| ≤ 1 := by
  obtain ⟨hy0, hy1⟩ := hn ((x + 999) * 0.0013) ((y - 777) * 0.0013) (t * 0.07)
  rw [flowMag, jsMap, flowNy, abs_le]
  constructor <;> nlinarith

lemma norm_flowForce_le (noise : Noise) (x y t : ℝ)
    (hn : ∀ a b c, 0 ≤ noise a b c ∧ noise a b c ≤ 1) :
    ‖flowForce noise x y t‖ ≤ 1 := by
  rw [flowForce, norm_vec2_cos_sin_mul]
  exact flowMag_le_one noise x y t hn

lemma norm_particleDrift_le (noise : Noise) (t : ℝ) (p : Particle)
    (hn : ∀ a b c, 0 ≤ noise a b c ∧ noise a b c ≤ 1)
    (hr : 0 ≤ p.rand ∧ p.rand ≤ 1) :
    ‖particleDrift noise t 1 p‖ ≤ 37.3 := by
  rw [particleDrift]
  refine le_trans (norm_add_le _ _) ?_
  have h1 : ‖vec2 (Real.cos (driftAngle noise t p)) (Real.sin (driftAngle noise t p)) *
      ((driftSpread p * 1 : ℝ) : ℂ)‖ ≤ 36.4 := by
    rw [norm_vec2_cos_sin_mul, mul_one, driftSpread, EXHALE_SPREAD, EXHALE_JITTER,
      abs_of_nonneg (by nlinarith [hr.1] : (0:ℝ) ≤ 28 * (0.4 + 0.9 * p.rand))]
    nlinarith [hr.2]
  have h2 : ‖flowForce noise p.home.re p.home.im t *
      ((DRIFT_NOISE_STRENGTH * 1 : ℝ) : ℂ)‖ ≤ 0.9 := by
    rw [norm_mul, Complex.norm_real, Real.norm_eq_abs, DRIFT_NOISE_STRENGTH]
    have := norm_flowForce_le noise p.home.re p.home.im t hn
    have hnn : (0:ℝ) ≤ ‖flowForce noise p.home.re p.home.im t‖ := norm_nonneg _
    rw [abs_of_nonneg (by norm_num : (0:ℝ) ≤ (0.9:ℝ) * 1)]
    nlinarith
  linarith

/-- C2 (amended): if the prior displacement from home exceeds `746/185`
(≈ 4.03, which is `0.08 / 0.74` times the maximum one-step drift magnitude
`37.3`), then — with the noise source in [0,1] and `rand` in [0,1] — one step
at `exhale = 0` leaves the particle strictly closer to home than one step at
`exhale = 1`, given identical noise state and prior position. -/
theorem motion_inhale_contracts (noise : Noise) (t : ℝ) (p : Particle)
    (hn : ∀ a b c, 0 ≤ noise a b c ∧ noise a b c ≤ 1)
    (hr : 0 ≤ p.rand ∧ p.rand ≤ 1)
    (hd : 746 / 185 < dist p.pos p.home) :
    dist (particleStep noise t 0 p).pos p.home <
      dist (particleStep noise t 1 p).pos p.home := by
  rw [dist_step_exhale_zero]
  have h1 : (particleStep noise t 1 p).pos - p.home =
      ((0.92 : ℝ) : ℂ) * (p.pos - p.home) +
        ((0.08 : ℝ) : ℂ) * particleDrift noise t 1 p := by
    rw [particleStep_pos, particleTarget, particleEasing_one]
    rw [show ((0.08 : ℝ) : ℂ) = (0.08 : ℂ) by norm_num,
      show ((0.92 : ℝ) : ℂ) = (0.92 : ℂ) by norm_num]
    ring
  have hlow : ‖((0.92 : ℝ) : ℂ) * (p.pos - p.home)‖ -
      ‖((0.08 : ℝ) : ℂ) * particleDrift noise t 1 p‖ ≤
        dist (particleStep noise t 1 p).pos p.home := by
    rw [dist_eq_norm, h1]
    simpa using norm_sub_norm_le (((0.92 : ℝ) : ℂ) * (p.pos - p.home))
      (-(((0.08 : ℝ) : ℂ) * particleDrift noise t 1 p))
  rw [norm_mul, norm_mul, Complex.norm_real, Complex.norm_real, Real.norm_eq_abs,
    Real.norm_eq_abs, ← dist_eq_norm] at hlow
  have hdrift := norm_particleDrift_le noise t p hn hr
  have h92 : |(0.92:ℝ)| = 0.92 := by norm_num
  have h08 : |(0.08:ℝ)| = 0.08 := by norm_num
  rw [h92, h08] at hlow
  nlinarith [norm_nonneg (particleDrift noise t 1 p)]

/-- Witness for the amended C2: home at the origin, prior position at `5`,
`rand = 0`, constant-zero noise, `t = 0`. -/
theorem motion_inhale_contracts_witness :
    (∀ a b c : ℝ, 0 ≤ (fun _ _ _ => (0:ℝ)) a b c ∧ (fun _ _ _ => (0:ℝ)) a b c ≤ 1) ∧
    (0 ≤ (Particle.mk 0 5 2 0 0).rand ∧ (Particle.mk 0 5 2 0 0).rand ≤ 1) ∧
    (746 / 185 : ℝ) < dist (Particle.mk 0 5 2 0 0).pos (Particle.mk 0 5 2 0 0).home ∧
    dist (particleStep (fun _ _ _ => (0:ℝ)) 0 0 (Particle.mk 0 5 2 0 0)).pos
        (Particle.mk 0 5 2 0 0).home <
      dist (particleStep (fun _ _ _ => (0:ℝ)) 0 1 (Particle.mk 0 5 2 0 0)).pos
        (Particle.mk 0 5 2 0 0).home := by
  have hn : ∀ a b c : ℝ, 0 ≤ (fun _ _ _ => (0:ℝ)) a b c ∧ (fun _ _ _ => (0:ℝ)) a b c ≤ 1 :=
    fun _ _ _ => ⟨le_rfl, by norm_num⟩
  have hd : (746 / 185 : ℝ) < dist (Particle.mk 0 5 2 0 0).pos (Particle.mk 0 5 2 0 0).home := by
    show (746 / 185 : ℝ) < dist (5 : ℂ) 0
    rw [dist_eq_norm, sub_zero]
    rw [show ((5:ℂ)) = ((5:ℝ):ℂ) by norm_num, Complex.norm_real, Real.norm_eq_abs]
    norm_num
  exact ⟨hn, ⟨le_rfl, by norm_num⟩, hd,
    motion_inhale_contracts (fun _ _ _ => (0:ℝ)) 0 (Particle.mk 0 5 2 0 0) hn
      ⟨le_rfl, by norm_num⟩ hd⟩

-- ===== Counterexample noise state for claim C2 as stated =====

/-- A concrete admissible noise source (values in [0,1]): a clamped linear
ramp in the first coordinate. It returns 1 at `x = 0` and 0 at `x = 1.2987`,
the two spatial abscissae the integrator samples for a particle homed at the
origin at `t = 0`. -/
noncomputable def noiseCE : Noise := fun x _ _ => min 1 (max 0 (1 - x / 1.2987))

/-- The concrete particle for the counterexample: home at the origin, prior
position at distance 1, `theta = π`, `rand = 0`. -/
noncomputable def pCE : Particle := Particle.mk 0 1 2 Real.pi 0

lemma noiseCE_zero (y t : ℝ) : noiseCE 0 y t = 1 := by
  rw [noiseCE]; norm_num

lemma pCE_home_re : pCE.home.re = 0 := by rw [pCE]; simp
lemma pCE_home_im : pCE.home.im = 0 := by rw [pCE]; simp

lemma driftAngle_CE : driftAngle noiseCE 0 pCE = Real.pi + 2 * Real.pi := by
  rw [driftAngle, pCE_home_re, pCE_home_im]
  rw [show (0:ℝ) * DRIFT_NOISE_SCALE = 0 by ring, show (0:ℝ) * 0.15 = 0 by ring,
    noiseCE_zero]
  rw [show pCE.theta = Real.pi from rfl]
  ring

lemma flowAngle_CE : flowAngle noiseCE 0 0 0 = Real.pi := by
  rw [flowAngle, flowNx]
  rw [show (0:ℝ) * 0.0013 = 0 by ring, show (0:ℝ) * 0.07 = 0 by ring, noiseCE_zero]
  rw [jsMap]
  ring

lemma flowMag_CE : flowMag noiseCE 0 0 0 = 0.2 := by
  rw [flowMag, flowNy, noiseCE, jsMap]
  norm_num

lemma flowForce_CE : flowForce noiseCE 0 0 0 = ((-0.2 : ℝ) : ℂ) := by
  rw [flowForce, flowAngle_CE, flowMag_CE, Real.cos_pi, Real.sin_pi]
  simp only [vec2, Complex.ext_iff, Complex.mul_re, Complex.mul_im,
    Complex.ofReal_re, Complex.ofReal_im]
  norm_num

lemma driftSpread_CE : driftSpread pCE = 11.2 := by
  rw [driftSpread, EXHALE_SPREAD, EXHALE_JITTER, show pCE.rand = 0 from rfl]
  norm_num

lemma particleDrift_CE : particleDrift noiseCE 0 1 pCE = ((-11.38 : ℝ) : ℂ) := by
  rw [particleDrift, driftAngle_CE, pCE_home_re, pCE_home_im, flowForce_CE,
    Real.cos_add_two_pi, Real.sin_add_two_pi, Real.cos_pi, Real.sin_pi,
    driftSpread_CE, DRIFT_NOISE_STRENGTH]
  simp only [vec2, Complex.ext_iff, Complex.add_re, Complex.add_im,
    Complex.mul_re, Complex.mul_im, Complex.ofReal_re, Complex.ofReal_im]
  norm_num

lemma step_CE_exhale_one :
    dist (particleStep noiseCE 0 1 pCE).pos pCE.home = 0.0096 := by
  have htgt : particleTarget noiseCE 0 1 pCE = ((-11.38 : ℝ) : ℂ) := by
    rw [particleTarget, particleDrift_CE, show pCE.home = 0 from rfl, zero_add]
  rw [dist_eq_norm, particleStep_pos, htgt, particleEasing_one,
    show pCE.home = 0 from rfl, show pCE.pos = 1 from rfl, sub_zero]
  have hz : (1 : ℂ) + ((0.08 : ℝ) : ℂ) * (((-11.38 : ℝ) : ℂ) - 1) =
      ((0.0096 : ℝ) : ℂ) := by
    rw [show ((0.08 : ℝ) : ℂ) = (0.08 : ℂ) by norm_num,
      show ((-11.38 : ℝ) : ℂ) = (-11.38 : ℂ) by norm_num,
      show ((0.0096 : ℝ) : ℂ) = (0.0096 : ℂ) by norm_num]
    norm_num
  rw [hz, Complex.norm_real, Real.norm_eq_abs]
  norm_num

lemma step_CE_exhale_zero :
    dist (particleStep noiseCE 0 0 pCE).pos pCE.home = 0.18 := by
  rw [dist_step_exhale_zero, show pCE.home = 0 from rfl, show pCE.pos = 1 from rfl,
    dist_eq_norm, sub_zero, norm_one, mul_one]

/-- C2 (counterexample to the claim as stated): with the admissible noise
state `noiseCE`, at `t = 0`, for the particle `pCE` with non-zero prior
displacement 1 from home, the step at `exhale = 0` lands at distance 0.18
from home while the step at `exhale = 1` lands at distance 0.0096 — so the
`exhale = 0` step is NOT strictly closer to home. -/
theorem motion_inhale_counterexample :
    ¬ dist (particleStep noiseCE 0 0 pCE).pos pCE.home <
        dist (particleStep noiseCE 0 1 pCE).pos pCE.home := by
  rw [step_CE_exhale_zero, step_CE_exhale_one]
  norm_num

-- ===== Particle Sampler (src/sketch.js lines 133-195) =====

/-- One RGBA pixel of the offscreen buffer, as read from
`pg.pixels[idx .. idx+3]`. -/
structure RGBA where
  r : ℕ
  g : ℕ
  b : ℕ
  a : ℕ

/-- The "lit" test of the sampler: `a > 10 && (r + g + b) > 500`. -/
def litPixel (c : RGBA) : Prop := 10 < c.a ∧ 500 < c.r + c.g + c.b

instance (c : RGBA) : Decidable (litPixel c) := instDecidableAnd

/-- The random draws consumed by `makeParticle`: `random(-2, 2)`,
`random(1.6, 2.4)`, `random(TWO_PI)`, `random()`. The stateful `random()`
stream is modelled as a function of the creation site, so each created
particle receives its own draws. -/
structure RandDraw where
  jitter : ℝ
  size : ℝ
  theta : ℝ
  rand : ℝ

/-- src/sketch.js lines 186-195: `makeParticle(x, y)`. The single `jitter`
draw offsets both coordinates of `pos`. -/
noncomputable def makeParticle (x y : ℕ) (rd : RandDraw) : Particle :=
  Particle.mk (vec2 x y) (vec2 (x + rd.jitter) (y + rd.jitter)) rd.size rd.theta rd.rand

/-- The sampled coordinates of one axis: `for (let v = 0; v < n; v += SAMPLE_STEP)`. -/
def sampleCoords (n : ℕ) : List ℕ :=
  (List.range ((n + SAMPLE_STEP - 1) / SAMPLE_STEP)).map (fun i => SAMPLE_STEP * i)

/-- src/sketch.js lines 164-183: scan every `SAMPLE_STEP`-th pixel in both
axes and create a particle for each lit pixel. The buffer contents `px` and
the random stream `rnd` are inputs. -/
noncomputable def buildTextParticles (pw ph : ℕ) (px : ℕ → ℕ → RGBA)
    (rnd : ℕ → ℕ → RandDraw) : List Particle :=
  (sampleCoords ph).flatMap (fun y =>
    (sampleCoords pw).filterMap (fun x =>
      if litPixel (px x y) then some (makeParticle x y (rnd x y)) else none))

lemma mem_sampleCoords {n x : ℕ} : x ∈ sampleCoords n ↔ SAMPLE_STEP ∣ x ∧ x < n := by
  simp only [sampleCoords, SAMPLE_STEP, List.mem_map, List.mem_range]
  constructor
  · rintro ⟨i, hi, rfl⟩
    exact ⟨⟨i, rfl⟩, by omega⟩
  · rintro ⟨⟨k, rfl⟩, hlt⟩
    exact ⟨k, by omega, rfl⟩

lemma ite_some_eq_some {α : Type} {c : Prop} [Decidable c] {u q : α} :
    (if c then some u else none) = some q ↔ c ∧ u = q := by
  split_ifs with hc
  · simp [hc]
  · simp [hc]

lemma mem_buildTextParticles {pw ph : ℕ} {px : ℕ → ℕ → RGBA}
    {rnd : ℕ → ℕ → RandDraw} {q : Particle} :
    q ∈ buildTextParticles pw ph px rnd ↔
      ∃ x y : ℕ, SAMPLE_STEP ∣ x ∧ x < pw ∧ SAMPLE_STEP ∣ y ∧ y < ph ∧
        litPixel (px x y) ∧ q = makeParticle x y (rnd x y) := by
  simp only [buildTextParticles, List.mem_flatMap, List.mem_filterMap,
    mem_sampleCoords, ite_some_eq_some]
  constructor
  · rintro ⟨y, ⟨hy6, hyn⟩, x, ⟨hx6, hxn⟩, hl, rfl⟩
    exact ⟨x, y, hx6, hxn, hy6, hyn, hl, rfl⟩
  · rintro ⟨x, y, hx6, hxn, hy6, hyn, hl, rfl⟩
    exact ⟨y, ⟨hy6, hyn⟩, x, ⟨hx6, hxn⟩, hl, rfl⟩

lemma vec2_natCast_inj {x y x' y' : ℕ}
    (h : vec2 (x : ℝ) (y : ℝ) = vec2 (x' : ℝ) (y' : ℝ)) : x = x' ∧ y = y' := by
  rw [vec2, vec2, Complex.ext_iff] at h
  obtain ⟨h1, h2⟩ := h
  exact ⟨Nat.cast_injective h1, Nat.cast_injective h2⟩

/-- C6: the Particle Sampler scans every `SAMPLE_STEP`-th pixel in both axes
and creates a particle exactly when the pixel's alpha exceeds 10 and its RGB
sum exceeds 500; whenever a sampled pixel of the buffer is lit the particle
set is non-empty; every particle's home lies within the buffer bounds, and
its `pos` is offset from `home` by the particle's jitter draw (small when the
draws respect `random(-2, 2)`). -/
theorem sampler_particles (pw ph : ℕ) (px : ℕ → ℕ → RGBA) (rnd : ℕ → ℕ → RandDraw)
    (hj : ∀ x y, -2 ≤ (rnd x y).jitter ∧ (rnd x y).jitter ≤ 2)
    (hlit : ∃ x y : ℕ, SAMPLE_STEP ∣ x ∧ x < pw ∧ SAMPLE_STEP ∣ y ∧ y < ph ∧ litPixel (px x y)) :
    buildTextParticles pw ph px rnd ≠ [] ∧
    (∀ x y : ℕ, (∃ q ∈ buildTextParticles pw ph px rnd, q.home = vec2 x y) ↔
      (SAMPLE_STEP ∣ x ∧ x < pw ∧ SAMPLE_STEP ∣ y ∧ y < ph ∧ litPixel (px x y))) ∧
    (∀ q ∈ buildTextParticles pw ph px rnd, ∃ x y : ℕ, x < pw ∧ y < ph ∧
      q.home = vec2 x y ∧
      q.pos = q.home + vec2 (rnd x y).jitter (rnd x y).jitter ∧
      -2 ≤ (rnd x y).jitter ∧ (rnd x y).jitter ≤ 2) := by
  refine ⟨?_, ?_, ?_⟩
  · obtain ⟨x, y, hx6, hxn, hy6, hyn, hl⟩ := hlit
    intro hnil
    have : makeParticle x y (rnd x y) ∈ buildTextParticles pw ph px rnd :=
      mem_buildTextParticles.2 ⟨x, y, hx6, hxn, hy6, hyn, hl, rfl⟩
    rw [hnil] at this
    exact List.not_mem_nil _ this
  · intro x y
    constructor
    · rintro ⟨q, hq, hhome⟩
      obtain ⟨x', y', hx6, hxn, hy6, hyn, hl, rfl⟩ := mem_buildTextParticles.1 hq
      have : (vec2 (x' : ℝ) (y' : ℝ)) = vec2 (x : ℝ) (y : ℝ) := hhome
      obtain ⟨hx, hy⟩ := vec2_natCast_inj this
      subst hx; subst hy
      exact ⟨hx6, hxn, hy6, hyn, hl⟩
    · rintro ⟨hx6, hxn, hy6, hyn, hl⟩
      exact ⟨makeParticle x y (rnd x y),
        mem_buildTextParticles.2 ⟨x, y, hx6, hxn, hy6, hyn, hl, rfl⟩, rfl⟩
  · intro q hq
    obtain ⟨x, y, hx6, hxn, hy6, hyn, hl, rfl⟩ := mem_buildTextParticles.1 hq
    refine ⟨x, y, hxn, hyn, rfl, ?_, hj x y⟩
    show vec2 (x + (rnd x y).jitter) (y + (rnd x y).jitter) =
      vec2 (x : ℝ) (y : ℝ) + vec2 (rnd x y).jitter (rnd x y).jitter
    rw [vec2, vec2, vec2, Complex.ext_iff]
    constructor <;> simp

/-- Witness for C6: an all-white 7x7 buffer with zero-jitter draws. -/
theorem sampler_particles_witness :
    (∀ x y : ℕ, -2 ≤ ((fun _ _ => RandDraw.mk 0 2 0 0) x y).jitter ∧
      ((fun _ _ => RandDraw.mk 0 2 0 0) x y).jitter ≤ 2) ∧
    (∃ x y : ℕ, SAMPLE_STEP ∣ x ∧ x < 7 ∧ SAMPLE_STEP ∣ y ∧ y < 7 ∧
      litPixel ((fun _ _ => RGBA.mk 255 255 255 255) x y)) ∧
    buildTextParticles 7 7 (fun _ _ => RGBA.mk 255 255 255 255)
      (fun _ _ => RandDraw.mk 0 2 0 0) ≠ [] := by
  have hj : ∀ x y : ℕ, -2 ≤ ((fun _ _ => RandDraw.mk 0 2 0 0) x y).jitter ∧
      ((fun _ _ => RandDraw.mk 0 2 0 0) x y).jitter ≤ 2 :=
    fun _ _ => ⟨by norm_num, by norm_num⟩
  have hlit : ∃ x y : ℕ, SAMPLE_STEP ∣ x ∧ x < 7 ∧ SAMPLE_STEP ∣ y ∧ y < 7 ∧
      litPixel ((fun _ _ => RGBA.mk 255 255 255 255) x y) :=
    ⟨0, 0, Dvd.intro 0 rfl, by norm_num, Dvd.intro 0 rfl, by norm_num, by decide⟩
  exact ⟨hj, hlit,
    (sampler_particles 7 7 (fun _ _ => RGBA.mk 255 255 255 255)
      (fun _ _ => RandDraw.mk 0 2 0 0) hj hlit).1⟩

-- ===== Decimal rendering and the build key (src/sketch.js lines 69, 183) =====

/-- The decimal digit character for `d`. -/
def digitChar (d : ℕ) : Char := Char.ofNat (48 + d)

/-- Little-endian decimal digits of `n`, with explicit fuel (`fuel ≥ n`
suffices for completion). -/
def toDigitsRev (fuel n : ℕ) : List ℕ :=
  match fuel with
  | 0 => []
  | fuel' + 1 => if n = 0 then [] else n % 10 :: toDigitsRev fuel' (n / 10)

/-- Decimal rendering of a natural number, modelling the JS number-to-string
coercion applied to `width`/`height` in the build key. -/
def natToString (n : ℕ) : String :=
  if n = 0 then "0" else ⟨((toDigitsRev n n).map digitChar).reverse⟩

/-- The value of a little-endian digit list. -/
def digitsVal (l : List ℕ) : ℕ := l.foldr (fun d acc => d + 10 * acc) 0

lemma toDigitsRev_val : ∀ fuel n, n ≤ fuel → digitsVal (toDigitsRev fuel n) = n := by
  intro fuel
  induction fuel with
  | zero => intro n hn; interval_cases n; rfl
  | succ fuel' ih =>
    intro n hn
    rw [toDigitsRev]
    split
    · simp [digitsVal]; omega
    · rename_i hn0
      have hdiv : n / 10 ≤ fuel' := by omega
      rw [digitsVal, List.foldr_cons]
      have := ih (n / 10) hdiv
      rw [digitsVal] at this
      rw [this]
      omega

lemma toDigitsRev_lt_ten : ∀ fuel n, ∀ d ∈ toDigitsRev fuel n, d < 10 := by
  intro fuel
  induction fuel with
  | zero => intro n d hd; simp [toDigitsRev] at hd
  | succ fuel' ih =>
    intro n d hd
    rw [toDigitsRev] at hd
    split at hd
    · simp at hd
    · rcases List.mem_cons.1 hd with h | h
      · omega
      · exact ih (n / 10) d h

lemma digitChar_inj : ∀ d < 10, ∀ e < 10, digitChar d = digitChar e → d = e := by decide

lemma digitChar_ne_bar_x : ∀ d < 10, digitChar d ≠ '|' ∧ digitChar d ≠ 'x' := by decide

lemma natToString_chars {n : ℕ} : ∀ c ∈ (natToString n).data, c ≠ '|' ∧ c ≠ 'x' := by
  rw [natToString]
  split
  · intro c hc
    have : c = '0' := by simpa using hc
    subst this
    exact ⟨by decide, by decide⟩
  · intro c hc
    have hc' : c ∈ (toDigitsRev n n).map digitChar := by
      rw [show (String.mk (((toDigitsRev n n).map digitChar).reverse)).data =
        ((toDigitsRev n n).map digitChar).reverse from rfl] at hc
      exact List.mem_reverse.1 hc
    obtain ⟨d, hd, rfl⟩ := List.mem_map.1 hc'
    exact digitChar_ne_bar_x d (toDigitsRev_lt_ten n n d hd)

lemma map_digitChar_inj : ∀ l1 l2 : List ℕ, (∀ d ∈ l1, d < 10) → (∀ d ∈ l2, d < 10) →
    l1.map digitChar = l2.map digitChar → l1 = l2 := by
  intro l1
  induction l1 with
  | nil => intro l2 _ _ h; cases l2 <;> simp_all
  | cons a l1' ih =>
    intro l2 h1 h2 h
    cases l2 with
    | nil => simp at h
    | cons b l2' =>
      simp only [List.map_cons, List.cons.injEq] at h
      have ha : a = b := digitChar_inj a (h1 a (by simp)) b (h2 b (by simp)) h.1
      have hl : l1' = l2' := ih l2' (fun d hd => h1 d (by simp [hd]))
        (fun d hd => h2 d (by simp [hd])) h.2
      rw [ha, hl]

lemma natToString_inj {m n : ℕ} (h : natToString m = natToString n) : m = n := by
  have hd := congrArg String.data h
  by_cases hm : m = 0 <;> by_cases hn : n = 0
  · omega
  · exfalso
    rw [natToString, natToString, if_pos hm, if_neg hn] at hd
    have hmap : (toDigitsRev n n).map digitChar = ['0'] := by
      have h0 : ('0' : Char) :: [] = ((toDigitsRev n n).map digitChar).reverse := hd
      have := congrArg List.reverse h0
      simpa using this.symm
    obtain ⟨d, hdig⟩ : ∃ d, toDigitsRev n n = [d] := by
      cases hlist : toDigitsRev n n with
      | nil => rw [hlist] at hmap; simp at hmap
      | cons a l =>
        rw [hlist] at hmap
        cases l with
        | nil => exact ⟨a, rfl⟩
        | cons b l' => simp at hmap
    have hd10 : d < 10 := toDigitsRev_lt_ten n n d (by rw [hdig]; simp)
    have hchar : digitChar d = '0' := by rw [hdig] at hmap; simpa using hmap
    have hd0 : d = 0 := digitChar_inj d hd10 0 (by norm_num) hchar
    have hval := toDigitsRev_val n n le_rfl
    rw [hdig, hd0] at hval
    simp [digitsVal] at hval
    omega
  · exfalso
    rw [natToString, natToString, if_neg hm, if_pos hn] at hd
    have hmap : (toDigitsRev m m).map digitChar = ['0'] := by
      have h0 : ((toDigitsRev m m).map digitChar).reverse = ('0' : Char) :: [] := hd
      have := congrArg List.reverse h0
      simpa using this
    obtain ⟨d, hdig⟩ : ∃ d, toDigitsRev m m = [d] := by
      cases hlist : toDigitsRev m m with
      | nil => rw [hlist] at hmap; simp at hmap
      | cons a l =>
        rw [hlist] at hmap
        cases l with
        | nil => exact ⟨a, rfl⟩
        | cons b l' => simp at hmap
    have hd10 : d < 10 := toDigitsRev_lt_ten m m d (by rw [hdig]; simp)
    have hchar : digitChar d = '0' := by rw [hdig] at hmap; simpa using hmap
    have hd0 : d = 0 := digitChar_inj d hd10 0 (by norm_num) hchar
    have hval := toDigitsRev_val m m le_rfl
    rw [hdig, hd0] at hval
    simp [digitsVal] at hval
    omega
  · rw [natToString, natToString, if_neg hm, if_neg hn] at hd
    have hmap : (toDigitsRev m m).map digitChar = (toDigitsRev n n).map digitChar := by
      have h0 : ((toDigitsRev m m).map digitChar).reverse =
          ((toDigitsRev n n).map digitChar).reverse := hd
      have := congrArg List.reverse h0
      simpa using this
    have hlists : toDigitsRev m m = toDigitsRev n n :=
      map_digitChar_inj _ _ (toDigitsRev_lt_ten m m) (toDigitsRev_lt_ten n n) hmap
    have h1 := toDigitsRev_val m m le_rfl
    have h2 := toDigitsRev_val n n le_rfl
    rw [hlists] at h1
    omega

lemma append_cons_inj_left {c : Char} : ∀ (a1 : List Char) {a2 b1 b2 : List Char},
    c ∉ a1 → c ∉ a2 → a1 ++ c :: b1 = a2 ++ c :: b2 → a1 = a2 ∧ b1 = b2 := by
  intro a1
  induction a1 with
  | nil =>
    intro a2 b1 b2 _ h2 h
    cases a2 with
    | nil => simpa using h
    | cons y a2' =>
      exfalso
      simp only [List.nil_append, List.cons_append, List.cons.injEq] at h
      exact h2 (by rw [h.1]; simp)
  | cons x a1' ih =>
    intro a2 b1 b2 h1 h2 h
    cases a2 with
    | nil =>
      exfalso
      simp only [List.nil_append, List.cons_append, List.cons.injEq] at h
      exact h1 (by rw [← h.1]; simp)
    | cons y a2' =>
      simp only [List.cons_append, List.cons.injEq] at h
      obtain ⟨hx, hrest⟩ := h
      have := ih (fun hc => h1 (by simp [hc])) (fun hc => h2 (by simp [hc])) hrest
      exact ⟨by rw [hx, this.1], this.2⟩

lemma append_cons_inj_right {c : Char} {a1 a2 b1 b2 : List Char}
    (h1 : c ∉ b1) (h2 : c ∉ b2) (h : a1 ++ c :: b1 = a2 ++ c :: b2) :
    a1 = a2 ∧ b1 = b2 := by
  have hr : b1.reverse ++ c :: a1.reverse = b2.reverse ++ c :: a2.reverse := by
    have hrev := congrArg List.reverse h
    simpa [List.reverse_append, List.append_assoc] using hrev
  have hsplit := append_cons_inj_left b1.reverse (fun hc => h1 (List.mem_reverse.1 hc))
    (fun hc => h2 (List.mem_reverse.1 hc)) hr
  constructor
  · have := congrArg List.reverse hsplit.2
    simpa using this
  · have := congrArg List.reverse hsplit.1
    simpa using this

-- ===== Build key and rebuild logic (src/sketch.js lines 60-70, 183, 198-203) =====

/-- The build key: `DISPLAY_TEXT + "|" + width + "x" + height`. -/
def buildKey (text : String) (w h : ℕ) : String :=
  text ++ "|" ++ natToString w ++ "x" ++ natToString h

lemma buildKey_data (text : String) (w h : ℕ) :
    (buildKey text w h).data =
      text.data ++ '|' :: ((natToString w).data ++ 'x' :: (natToString h).data) := by
  simp [buildKey, String.data_append]

lemma buildKey_inj {t1 t2 : String} {w1 h1 w2 h2 : ℕ}
    (h : buildKey t1 w1 h1 = buildKey t2 w2 h2) : t1 = t2 ∧ w1 = w2 ∧ h1 = h2 := by
  have hd := congrArg String.data h
  rw [buildKey_data, buildKey_data] at hd
  have hbar : ∀ u v : ℕ, ('|' : Char) ∉ (natToString u).data ++ 'x' :: (natToString v).data := by
    intro u v hc
    rcases List.mem_append.1 hc with hm | hm
    · exact (natToString_chars _ hm).1 rfl
    · rcases List.mem_cons.1 hm with hm | hm
      · exact absurd hm (by decide)
      · exact (natToString_chars _ hm).1 rfl
  obtain ⟨htext, hnum⟩ := append_cons_inj_right (hbar w1 h1) (hbar w2 h2) hd
  have hx1 : ('x' : Char) ∉ (natToString w1).data := fun hc => (natToString_chars _ hc).2 rfl
  have hx2 : ('x' : Char) ∉ (natToString w2).data := fun hc => (natToString_chars _ hc).2 rfl
  obtain ⟨hw, hh⟩ := append_cons_inj_left _ hx1 hx2 hnum
  exact ⟨String.ext htext, natToString_inj (String.ext hw), natToString_inj (String.ext hh)⟩

/-- The mutable sketch state relevant to rebuilds: the display text, the
canvas dimensions, and the cached `lastBuildKey`. -/
structure SketchState where
  displayText : String
  width : ℕ
  height : ℕ
  lastBuildKey : String

/-- `buildTextParticles()` side effect on the cached key (src/sketch.js
line 183): `lastBuildKey = DISPLAY_TEXT + "|" + width + "x" + height`. -/
def doBuild (s : SketchState) : SketchState :=
  { s with lastBuildKey := buildKey s.displayText s.width s.height }

/-- The rebuild check at the top of `draw()` (src/sketch.js lines 69-70):
`if (buildKey !== lastBuildKey) buildTextParticles()`. The boolean records
whether a rebuild happened this frame. -/
def drawRebuild (s : SketchState) : SketchState × Bool :=
  if buildKey s.displayText s.width s.height ≠ s.lastBuildKey then (doBuild s, true)
  else (s, false)

/-- `keyTyped()` for key `r` (src/sketch.js lines 198-203): swap the display
text and rebuild immediately. -/
def keyTypedR (s : SketchState) (newText : String) : SketchState :=
  doBuild { s with displayText := newText }

/-- `windowResized()` (src/sketch.js lines 60-63): resize and rebuild. -/
def windowResize (s : SketchState) (w h : ℕ) : SketchState :=
  doBuild { s with width := w, height := h }

/-- C3: no rebuild happens in `draw()` while the build key is unchanged; any
change of the display text or of the canvas dimensions changes the build key;
after such a change (with the state previously in sync) exactly one rebuild
happens: the next `draw()` rebuilds once and the following `draw()` does not;
and the event handlers that change text or dimensions rebuild exactly once
themselves, so the next `draw()` performs no further rebuild. -/
theorem build_key_rebuilds :
    (∀ s : SketchState, buildKey s.displayText s.width s.height = s.lastBuildKey →
      drawRebuild s = (s, false)) ∧
    (∀ (t t' : String) (w h w' h' : ℕ), (t ≠ t' ∨ w ≠ w' ∨ h ≠ h') →
      buildKey t w h ≠ buildKey t' w' h') ∧
    (∀ (s : SketchState) (t' : String) (w' h' : ℕ),
      s.lastBuildKey = buildKey s.displayText s.width s.height →
      (t' ≠ s.displayText ∨ w' ≠ s.width ∨ h' ≠ s.height) →
      (drawRebuild { s with displayText := t', width := w', height := h' }).2 = true ∧
      (drawRebuild (drawRebuild
        { s with displayText := t', width := w', height := h' }).1).2 = false) ∧
    (∀ (s : SketchState) (t' : String), (drawRebuild (keyTypedR s t')).2 = false) ∧
    (∀ (s : SketchState) (w' h' : ℕ), (drawRebuild (windowResize s w' h')).2 = false) := by
  have hsync : ∀ s : SketchState, buildKey s.displayText s.width s.height = s.lastBuildKey →
      drawRebuild s = (s, false) := by
    intro s hs
    rw [drawRebuild, if_neg]
    simpa using hs
  have hinj : ∀ (t t' : String) (w h w' h' : ℕ), (t ≠ t' ∨ w ≠ w' ∨ h ≠ h') →
      buildKey t w h ≠ buildKey t' w' h' := by
    intro t t' w h w' h' hne heq
    obtain ⟨h1, h2, h3⟩ := buildKey_inj heq
    rcases hne with h | h | h <;> exact h (by assumption)
  have hbuild : ∀ s : SketchState, (drawRebuild (doBuild s)).2 = false := by
    intro s
    rw [drawRebuild, if_neg]
    simp [doBuild]
  refine ⟨hsync, hinj, ?_, ?_, ?_⟩
  · intro s t' w' h' hs hne
    have hcond : buildKey ({ s with displayText := t', width := w', height := h' } :
        SketchState).displayText
        ({ s with displayText := t', width := w', height := h' } : SketchState).width
        ({ s with displayText := t', width := w', height := h' } : SketchState).height ≠
        ({ s with displayText := t', width := w', height := h' } :
          SketchState).lastBuildKey := by
      show buildKey t' w' h' ≠ s.lastBuildKey
      rw [hs]
      refine hinj t' s.displayText w' h' s.width s.height ?_
      rcases hne with h | h | h
      · exact Or.inl h
      · exact Or.inr (Or.inl h)
      · exact Or.inr (Or.inr h)
    have hfst : (drawRebuild { s with displayText := t', width := w', height := h' }).1 =
        doBuild { s with displayText := t', width := w', height := h' } := by
      rw [drawRebuild, if_pos hcond]
    constructor
    · rw [drawRebuild, if_pos hcond]
    · rw [hfst]
      exact hbuild _
  · intro s t'
    exact hbuild _
  · intro s w' h'
    exact hbuild _

/-- Witness for C3: a concrete synced state whose text changes from "56" to
"57" rebuilds exactly once on the next frame. -/
theorem build_key_rebuilds_witness :
    (SketchState.mk "56" 640 480 (buildKey "56" 640 480)).lastBuildKey =
      buildKey (SketchState.mk "56" 640 480 (buildKey "56" 640 480)).displayText
        (SketchState.mk "56" 640 480 (buildKey "56" 640 480)).width
        (SketchState.mk "56" 640 480 (buildKey "56" 640 480)).height ∧
    ("57" ≠ (SketchState.mk "56" 640 480 (buildKey "56" 640 480)).displayText ∨
      640 ≠ (SketchState.mk "56" 640 480 (buildKey "56" 640 480)).width ∨
      480 ≠ (SketchState.mk "56" 640 480 (buildKey "56" 640 480)).height) ∧
    (drawRebuild { SketchState.mk "56" 640 480 (buildKey "56" 640 480) with
      displayText := "57", width := 640, height := 480 }).2 = true := by
  have h1 : (SketchState.mk "56" 640 480 (buildKey "56" 640 480)).lastBuildKey =
      buildKey "56" 640 480 := rfl
  have h2 : ("57" : String) ≠ "56" := by decide
  exact ⟨h1, Or.inl h2,
    ((build_key_rebuilds.2.2.1 (SketchState.mk "56" 640 480 (buildKey "56" 640 480))
      "57" 640 480 h1 (Or.inl h2)).1)⟩

-- ===== HUD countdown (src/sketch.js lines 105-108, 120-131) =====

/-- p5 `nf(n, 2)`: left-pad the integer to two digits with zeros. -/
def nf2 (n : ℕ) : String := if n < 10 then "0" ++ natToString n else natToString n

/-- `drawCountdown(remainingSec)` text (src/sketch.js lines 120-123):
`nf(floor(remaining / 60), 2) + ":" + nf(floor(remaining % 60), 2)`.
The sketch only calls this with `remaining ≥ 0`, where JS `floor` agrees
with `Int.floor`/`toNat`. -/
noncomputable def countdownText (remaining : ℝ) : String :=
  nf2 (⌊remaining / 60⌋.toNat) ++ ":" ++ nf2 (⌊jsMod remaining 60⌋.toNat)

/-- The HUD step (src/sketch.js lines 105-108): if a run duration is
configured, draw the countdown for `max(0, RUN_SECONDS - elapsed)`;
otherwise draw nothing. `elapsed = (millis() - startMillis) / 1000`. -/
noncomputable def hudCountdown (runSeconds : Option ℤ) (elapsed : ℝ) : Option String :=
  runSeconds.map (fun d : ℤ => countdownText (max 0 ((d : ℝ) - elapsed)))

lemma jsMod_seven_sixty : jsMod 7 60 = 7 := by
  rw [jsMod, jsTrunc, if_pos (by norm_num : (0:ℝ) ≤ 7 / 60)]
  norm_num

lemma jsMod_zero_sixty : jsMod 0 60 = 0 := by
  rw [jsMod, jsTrunc, if_pos (by norm_num : (0:ℝ) ≤ 0 / 60)]
  norm_num

lemma countdownText_seven : countdownText 7 = "00:07" := by
  rw [countdownText, jsMod_seven_sixty]
  rw [show ⌊(7:ℝ) / 60⌋ = 0 by norm_num, show ⌊(7:ℝ)⌋ = 7 by norm_num]
  decide

lemma countdownText_zero : countdownText 0 = "00:00" := by
  rw [countdownText, jsMod_zero_sixty]
  rw [show ⌊(0:ℝ) / 60⌋ = 0 by norm_num, show ⌊(0:ℝ)⌋ = 0 by norm_num]
  decide

/-- C4: with duration 10 and elapsed 3 the HUD renders "00:07"; for any
elapsed ≥ 10 it renders "00:00"; the remaining value is never negative; and
with no configured duration no countdown is produced. -/
theorem hud_countdown_renders (e : ℝ) (he : 10 ≤ e) :
    hudCountdown (some (10:ℤ)) 3 = some "00:07" ∧
    hudCountdown (some (10:ℤ)) e = some "00:00" ∧
    (∀ (d : ℤ) (e' : ℝ), 0 ≤ max 0 ((d : ℝ) - e')) ∧
    hudCountdown none e = none := by
  refine ⟨?_, ?_, fun d e' => le_max_left 0 _, rfl⟩
  · rw [hudCountdown, Option.map_some']
    rw [show max (0:ℝ) (((10:ℤ):ℝ) - 3) = 7 by norm_num]
    rw [countdownText_seven]
  · rw [hudCountdown, Option.map_some']
    rw [show max (0:ℝ) (((10:ℤ):ℝ) - e) = 0 by
      rw [max_eq_left]; push_cast; linarith]
    rw [countdownText_zero]

/-- Witness for C4 at elapsed 12. -/
theorem hud_countdown_renders_witness :
    (10:ℝ) ≤ 12 ∧ hudCountdown (some (10:ℤ)) 12 = some "00:00" :=
  ⟨by norm_num, (hud_countdown_renders 12 (by norm_num)).2.1⟩

-- ===== Renderer opacity (src/sketch.js lines 100-101) =====

/-- The per-particle fill opacity: `const alpha = 200 + 55 * tri`. -/
noncomputable def drawAlpha (tri : ℝ) : ℝ := 200 + 55 * tri

lemma breathTri_mem (h t : ℝ) (hh : 0 < h) (ht : 0 ≤ t) :
    0 ≤ breathTri h t ∧ breathTri h t ≤ 1 := by
  obtain ⟨hp0, hp1⟩ := breathPhase_mem h t hh ht
  rw [breathTri]
  split <;> constructor <;> linarith

/-- C10: the fill opacity `200 + 55 * tri` lies in [200, 255] for any
`tri` in [0, 1], and in particular for the Breath Clock's triangle value at
any half-period `h > 0.5` and time `t ≥ 0`: particles never drop below
opacity 200. -/
theorem draw_alpha_range (h t tri : ℝ) (hh : 0.5 < h) (ht : 0 ≤ t)
    (htri : 0 ≤ tri ∧ tri ≤ 1) :
    (200 ≤ drawAlpha tri ∧ drawAlpha tri ≤ 255) ∧
    (200 ≤ drawAlpha (breathTri h t) ∧ drawAlpha (breathTri h t) ≤ 255) := by
  obtain ⟨h0, h1⟩ := breathTri_mem h t (by linarith) ht
  rw [drawAlpha, drawAlpha]
  exact ⟨⟨by linarith [htri.1], by linarith [htri.2]⟩, ⟨by linarith, by linarith⟩⟩

/-- Witness for C10 at `h = 8`, `t = 3`, `tri = 1/2`. -/
theorem draw_alpha_range_witness :
    (0.5:ℝ) < 8 ∧ (0:ℝ) ≤ 3 ∧ (0 ≤ (1/2:ℝ) ∧ (1/2:ℝ) ≤ 1) ∧
    (200 ≤ drawAlpha (1/2) ∧ drawAlpha (1/2) ≤ 255) :=
  ⟨by norm_num, by norm_num, ⟨by norm_num, by norm_num⟩,
    (draw_alpha_range 8 3 (1/2) (by norm_num) (by norm_num)
      ⟨by norm_num, by norm_num⟩).1⟩

-- ===== Startup parameter parsing (src/sketch.js lines 11-13, 36-50) =====

/-- JS `String.prototype.trim()`: strip whitespace from both ends. -/
def jsTrim (s : String) : String :=
  ⟨((s.data.dropWhile (fun c => c.isWhitespace)).reverse.dropWhile
      (fun c => c.isWhitespace)).reverse⟩

/-- Optional leading sign of a JS numeric literal; returns the sign and the
remaining characters. -/
def splitSign (l : List Char) : ℤ × List Char :=
  match l with
  | '-' :: r => (-1, r)
  | '+' :: r => (1, r)
  | _ => (1, l)

/-- Value of a list of decimal digit characters (most significant first). -/
def digitsToNat (l : List Char) : ℕ :=
  l.foldl (fun acc c => 10 * acc + (c.toNat - 48)) 0

/-- JS `parseInt(s, 10)`: skip whitespace, optional sign, then the longest
digit prefix; NaN (here `none`) when no digit follows. -/
def jsParseInt (s : String) : Option ℤ :=
  let l := s.data.dropWhile (fun c => c.isWhitespace)
  let sl := splitSign l
  let ds := sl.2.takeWhile (fun c => c.isDigit)
  if ds.isEmpty then none else some (sl.1 * digitsToNat ds)

/-- Value of a fractional digit string, `digits / 10 ^ length`. -/
def fracVal (l : List Char) : ℚ := (digitsToNat l : ℚ) / 10 ^ l.length

/-- The longest digit prefix. -/
def takeDigits (l : List Char) : List Char := l.takeWhile (fun c : Char => c.isDigit)

/-- What remains after the longest digit prefix. -/
def dropDigits (l : List Char) : List Char := l.drop (takeDigits l).length

/-- The fractional digits after a decimal point, if present. -/
def fracPart (l : List Char) : List Char :=
  match l with
  | '.' :: r => takeDigits r
  | _ => []

/-- What remains after the decimal point and its digits. -/
def afterFrac (l : List Char) : List Char :=
  match l with
  | '.' :: r => dropDigits r
  | _ => l

/-- The exponent of a decimal literal: `e|E [sign] digits`, else 0. -/
def expPart (l : List Char) : ℤ :=
  match l with
  | c :: r =>
    if c = 'e' ∨ c = 'E' then
      let se := splitSign r
      let eds := takeDigits se.2
      if eds.isEmpty then 0 else se.1 * digitsToNat eds
    else 0
  | [] => 0

/-- JS `parseFloat(s)`: skip whitespace, optional sign, then the longest
decimal-literal prefix `digits [. digits] [e|E [sign] digits]`. `none` models
NaN (no digits) and the non-finite `Infinity` results, both of which fail the
sketch's `Number.isFinite` guard. -/
def jsParseFloat (s : String) : Option ℚ :=
  let l := s.data.dropWhile (fun c => c.isWhitespace)
  let sl := splitSign l
  if sl.2.take 8 = "Infinity".data then none
  else
    let ip := takeDigits sl.2
    let fp := fracPart (dropDigits sl.2)
    if ip.isEmpty && fp.isEmpty then none
    else
      some ((sl.1 : ℚ) * ((digitsToNat ip : ℚ) + fracVal fp) *
        10 ^ expPart (afterFrac (dropDigits sl.2)))

/-- The startup configuration: display text, optional run duration in
seconds, breath half-period in seconds. -/
structure Config where
  displayText : String
  runSeconds : Option ℤ
  breathSeconds : ℚ

/-- `getParams()` (src/sketch.js lines 36-50) as a function of the three raw
query-parameter strings (`none` = parameter absent), together with the
declaration-site defaults `DISPLAY_TEXT = "56"`, `RUN_SECONDS = null`,
`BREATH_SECONDS = 8` (src/sketch.js lines 11-13). -/
def getParams (num dur breath : Option String) : Config :=
  { displayText :=
      match num with
      | some s => if jsTrim s ≠ "" then jsTrim s else "56"
      | none => "56"
    runSeconds :=
      match dur with
      | some s =>
        match jsParseInt s with
        | some sec => if 0 < sec then some sec else none
        | none => none
      | none => none
    breathSeconds :=
      match breath with
      | some s =>
        match jsParseFloat s with
        | some sec => if (0.5 : ℚ) < sec then sec else 8
        | none => 8
      | none => 8 }

/-- C8: parameter parsing is total and falls back silently: a missing or
blank display text keeps the default "56"; a duration that does not parse to
a positive (finite) integer leaves the run unbounded; a breath value that
does not parse to a finite number above 0.5 keeps the default 8; accepted
values are used exactly; and the resulting half-period always exceeds the
enforced minimum 0.5. -/
theorem get_params_fallbacks (num dur breath : Option String) :
    ((∀ s, num = some s → jsTrim s = "") → (getParams num dur breath).displayText = "56") ∧
    (∀ s, num = some s → jsTrim s ≠ "" → (getParams num dur breath).displayText = jsTrim s) ∧
    ((∀ s k, dur = some s → jsParseInt s = some k → k ≤ 0) →
      (getParams num dur breath).runSeconds = none) ∧
    (∀ s k, dur = some s → jsParseInt s = some k → 0 < k →
      (getParams num dur breath).runSeconds = some k) ∧
    ((∀ s q, breath = some s → jsParseFloat s = some q → q ≤ 0.5) →
      (getParams num dur breath).breathSeconds = 8) ∧
    (∀ s q, breath = some s → jsParseFloat s = some q → (0.5 : ℚ) < q →
      (getParams num dur breath).breathSeconds = q) ∧
    (0.5 : ℚ) < (getParams num dur breath).breathSeconds := by
  refine ⟨?_, ?_, ?_, ?_, ?_, ?_, ?_⟩
  · intro hblank
    cases num with
    | none => rfl
    | some s =>
      have := hblank s rfl
      simp [getParams, this]
  · intro s hs hne
    subst hs
    simp [getParams, if_pos hne]
  · intro hnp
    cases dur with
    | none => rfl
    | some s =>
      cases hp : jsParseInt s with
      | none => simp [getParams, hp]
      | some k =>
        have hk := hnp s k rfl hp
        simp [getParams, hp, if_neg (not_lt.2 hk)]
  · intro s k hs hp hk
    subst hs
    simp [getParams, hp, if_pos hk]
  · intro hnp
    cases breath with
    | none => rfl
    | some s =>
      cases hp : jsParseFloat s with
      | none => simp [getParams, hp]
      | some q =>
        have hq := hnp s q rfl hp
        simp [getParams, hp, if_neg (not_lt.2 hq)]
  · intro s q hs hp hq
    subst hs
    simp [getParams, hp, if_pos hq]
  · cases breath with
    | none => norm_num [getParams]
    | some s =>
      cases hp : jsParseFloat s with
      | none => norm_num [getParams, hp]
      | some q =>
        by_cases hq : (0.5 : ℚ) < q
        · simp [getParams, hp, if_pos hq]
          exact hq
        · simp [getParams, hp, if_neg hq]
          norm_num

/-- Witness for C8 at `num = "137"`, `dur = "600"`, `breath = "9.5"`. -/
theorem get_params_fallbacks_witness :
    jsTrim "137" ≠ "" ∧
    jsParseInt "600" = some 600 ∧ (0 : ℤ) < 600 ∧
    jsParseFloat "9.5" = some (19 / 2) ∧ (0.5 : ℚ) < 19 / 2 ∧
    (getParams (some "137") (some "600") (some "9.5")).displayText = "137" ∧
    (getParams (some "137") (some "600") (some "9.5")).runSeconds = some 600 ∧
    (getParams (some "137") (some "600") (some "9.5")).breathSeconds = 19 / 2 := by
  have htrim : jsTrim "137" ≠ "" := by decide
  have hint : jsParseInt "600" = some 600 := by decide
  have hfloat : jsParseFloat "9.5" = some (19 / 2) := by
    have hsl : splitSign ("9.5".data.dropWhile (fun c => c.isWhitespace)) =
        (1, ['9', '.', '5']) := by decide
    have hInf : ¬(List.take 8 ['9', '.', '5'] = "Infinity".data) := by decide
    have hip : takeDigits ['9', '.', '5'] = ['9'] := by decide
    have hfp : fracPart (dropDigits ['9', '.', '5']) = ['5'] := by decide
    have hr2 : afterFrac (dropDigits ['9', '.', '5']) = [] := by decide
    have hemp : ¬((takeDigits ['9', '.', '5']).isEmpty &&
        (fracPart (dropDigits ['9', '.', '5'])).isEmpty) = true := by decide
    simp only [jsParseFloat, hsl]
    rw [if_neg hInf, if_neg hemp, hip, hfp, hr2]
    have h9 : digitsToNat ['9'] = 9 := by decide
    have h5 : digitsToNat ['5'] = 5 := by decide
    have hexp : expPart [] = 0 := by decide
    rw [h9, hexp, fracVal, h5]
    norm_num
  have hpos : (0 : ℤ) < 600 := by norm_num
  have hhalf : (0.5 : ℚ) < 19 / 2 := by norm_num
  have hc := get_params_fallbacks (some "137") (some "600") (some "9.5")
  refine ⟨htrim, hint, hpos, hfloat, hhalf, ?_, ?_, ?_⟩
  · have := hc.2.1 "137" rfl htrim
    rw [this]
    decide
  · exact hc.2.2.2.1 "600" 600 rfl hint hpos
  · exact hc.2.2.2.2.2.1 "9.5" (19 / 2) rfl hfloat hhalf

end Sketch
